import Mathlib

/-!
Verification of the editz PDF-editing application's text-layer pipeline.

The definitions below are a shallow embedding of the TypeScript/JavaScript
source: the front-end viewer component (`PDFViewer.tsx`, `ModernPDFViewer`),
the editor hook (`usePDFEditor.ts`), and the backend edit route
(`backend/routes/pdf.js`).  JavaScript numbers are modelled as `ℚ` (exact
real-number semantics), strings as `String`/`List Char`, and JavaScript
objects as association lists with insert-or-overwrite update.
-/

namespace Editz

/-! ### ASCII character classes (the classes used by the JS regexes) -/

/-- ASCII uppercase letter, the class `[A-Z]`. -/
def isUpperAZ (c : Char) : Bool := 'A' ≤ c && c ≤ 'Z'

/-- ASCII lowercase letter, the class `[a-z]`. -/
def isLowerAZ (c : Char) : Bool := 'a' ≤ c && c ≤ 'z'

/-- ASCII digit, the class `[0-9]` (`\d`). -/
def isDigit09 (c : Char) : Bool := '0' ≤ c && c ≤ '9'

/-- ASCII letter, the class `[A-Za-z]`. -/
def isLetterAZ (c : Char) : Bool := isUpperAZ c || isLowerAZ c

/-- Word character, the class `\w = [A-Za-z0-9_]`, used by `\b`. -/
def isWordC (c : Char) : Bool := isLetterAZ c || isDigit09 c || c = '_'

/-! ### Substring search (JS `String.prototype.includes`) -/

/-- Does the second list occur at the head of the first? -/
def startsWithL : List Char → List Char → Bool
  | _, [] => true
  | [], _ :: _ => false
  | a :: as, b :: bs => a = b && startsWithL as bs

/-- Does `sub` occur contiguously anywhere in `hay`
(JS `hay.includes(sub)`)? -/
def containsSub : List Char → List Char → Bool
  | [], sub => sub.isEmpty
  | a :: as, sub => startsWithL (a :: as) sub || containsSub as sub

/-! ### Font Descriptor Resolver

Embeds the font-name analysis inside `renderTextLayer`
(`src/components/PDFViewer.tsx`, lines 163–213): strip a subset tag matching
`^[A-Z]{6}\+`, lower-case, then substring tests for weight, style and
family, in the source's `if`/`else if` order. -/

structure FontSpec where
  fontFamily : String
  fontWeight : String
  fontStyle : String
deriving DecidableEq, Repr

/-- `fontName.replace(/^[A-Z]{6}\+/, '')`: drop a leading run of exactly six
uppercase letters followed by `+`; otherwise leave the name unchanged. -/
def stripSubsetTag : List Char → List Char
  | a :: b :: c :: d :: e :: f :: '+' :: rest =>
    if isUpperAZ a && isUpperAZ b && isUpperAZ c &&
       isUpperAZ d && isUpperAZ e && isUpperAZ f
    then rest
    else a :: b :: c :: d :: e :: f :: '+' :: rest
  | l => l

/-- Weight detection chain over the lower-cased clean font name. -/
def resolveFontWeight (l : List Char) : String :=
  if containsSub l "black".data || containsSub l "heavy".data then "900"
  else if containsSub l "extrabold".data || containsSub l "ultrabold".data then "800"
  else if containsSub l "bold".data then "bold"
  else if containsSub l "semibold".data || containsSub l "demi".data then "600"
  else if containsSub l "medium".data then "500"
  else if containsSub l "light".data then "300"
  else if containsSub l "thin".data || containsSub l "ultralight".data then "200"
  else "normal"

/-- Style detection over the lower-cased clean font name. -/
def resolveFontStyle (l : List Char) : String :=
  if containsSub l "italic".data || containsSub l "oblique".data then "italic"
  else "normal"

/-- Family detection chain over the lower-cased clean font name. -/
def resolveFontFamily (l : List Char) : String :=
  if containsSub l "arial".data || containsSub l "helvetica".data then
    "Arial, Helvetica, \"Liberation Sans\", sans-serif"
  else if containsSub l "courier".data then
    "\"Courier New\", Courier, \"Liberation Mono\", monospace"
  else if containsSub l "times".data then
    "\"Times New Roman\", Times, \"Liberation Serif\", serif"
  else if containsSub l "calibri".data then
    "Calibri, \"Carlito\", sans-serif"
  else if containsSub l "verdana".data then
    "Verdana, \"DejaVu Sans\", sans-serif"
  else if containsSub l "tahoma".data then
    "Tahoma, \"DejaVu Sans\", sans-serif"
  else if containsSub l "georgia".data then
    "Georgia, \"Liberation Serif\", serif"
  else "Times, serif"

/-- The full resolver: strip the subset tag, lower-case, run the three
detection chains.  Total by construction. -/
def resolveFont (fontName : String) : FontSpec :=
  let clean := stripSubsetTag fontName.data
  let lower := clean.map Char.toLower
  { fontFamily := resolveFontFamily lower
    fontWeight := resolveFontWeight lower
    fontStyle := resolveFontStyle lower }

/-- Every keyword any of the three detection chains tests for. -/
def fontKeywords : List (List Char) :=
  ["black", "heavy", "extrabold", "ultrabold", "bold", "semibold", "demi",
   "medium", "light", "thin", "ultralight", "italic", "oblique", "arial",
   "helvetica", "courier", "times", "calibri", "verdana", "tahoma",
   "georgia"].map String.data

/-- Does the lower-cased clean name contain any detection keyword? -/
def hasFontKeyword (l : List Char) : Bool := fontKeywords.any (containsSub l)

/-- The lower-cased clean form of a raw font name. -/
def lowerCleanName (fontName : String) : List Char :=
  (stripSubsetTag fontName.data).map Char.toLower

/-! ### Color normalization

Embeds the color analysis inside `renderTextLayer`
(`src/components/PDFViewer.tsx`, lines 244–286).  The canvas-pixel-sampling
fallback that follows it in the source is a DOM side effect that only runs
when the analysed color stayed at the default; it is outside this embedding.
Also embeds the upload-path color conversion of `usePDFEditor.uploadDocument`
for backend items whose color is a packed integer. -/

/-- A JavaScript color value as `item.color` may carry it. -/
inductive JsColor where
  | arr (values : List ℚ)
  | str (s : String)
  | num (x : ℚ)
deriving DecidableEq

/-- JS `Math.round`: half-values round toward positive infinity. -/
def jsRound (x : ℚ) : ℤ := ⌊x + 1 / 2⌋

/-- Result of the viewer's color analysis: the CSS color string and the
exact RGB channel values kept for pdf-lib. -/
structure ColorResult where
  textColor : String
  rgbValues : List ℤ
deriving DecidableEq, Repr

/-- The template literal `rgb(r, g, b)`. -/
def rgbString (r g b : ℤ) : String :=
  "rgb(" ++ toString r ++ ", " ++ toString g ++ ", " ++ toString b ++ ")"

/-- Longest leading digit run and the remainder (`\d+` then rest). -/
def digitsSplit : List Char → List Char × List Char
  | [] => ([], [])
  | c :: rest =>
    if isDigit09 c then
      let p := digitsSplit rest
      (c :: p.1, p.2)
    else ([], c :: rest)

/-- Skip whitespace (`\s*`). -/
def dropSpaces (l : List Char) : List Char := l.dropWhile (fun c => c.isWhitespace)

/-- Decimal value of a digit run (JS `parseInt`). -/
def digitsToNat (l : List Char) : ℕ :=
  l.foldl (fun n c => 10 * n + (c.toNat - 48)) 0

/-- Match `rgb\((\d+),\s*(\d+),\s*(\d+)\)` at the head of the list. -/
def rgbParseAt : List Char → Option (ℤ × ℤ × ℤ)
  | 'r' :: 'g' :: 'b' :: '(' :: rest =>
    let p1 := digitsSplit rest
    if p1.1.isEmpty then none else
    match p1.2 with
    | ',' :: r2 =>
      let p2 := digitsSplit (dropSpaces r2)
      if p2.1.isEmpty then none else
      match p2.2 with
      | ',' :: r4 =>
        let p3 := digitsSplit (dropSpaces r4)
        if p3.1.isEmpty then none else
        match p3.2 with
        | ')' :: _ => some (digitsToNat p1.1, digitsToNat p2.1, digitsToNat p3.1)
        | _ => none
      | _ => none
    | _ => none
  | _ => none

/-- First match of the `rgb(...)` pattern anywhere in the string
(the regex is unanchored). -/
def rgbParse : List Char → Option (ℤ × ℤ × ℤ)
  | [] => none
  | c :: rest =>
    match rgbParseAt (c :: rest) with
    | some v => some v
    | none => rgbParse rest

/-- The viewer's color normalization (`renderTextLayer`): array of length
at least 3 is an RGB triple in `[0,1]`; array of length 1 is grayscale; a
string is kept and parsed; a plain number is treated as grayscale.
Everything else keeps the defaults `#000000` / `[0,0,0]`. -/
def normalizeColor (color : Option JsColor) : ColorResult :=
  let r0 : ColorResult := { textColor := "#000000", rgbValues := [0, 0, 0] }
  match color with
  | none => r0
  | some (.arr values) =>
    if 3 ≤ values.length then
      let r := jsRound (values.getD 0 0 * 255)
      let g := jsRound (values.getD 1 0 * 255)
      let b := jsRound (values.getD 2 0 * 255)
      { textColor := rgbString r g b, rgbValues := [r, g, b] }
    else if values.length = 1 then
      let gray := jsRound (values.getD 0 0 * 255)
      { textColor := rgbString gray gray gray, rgbValues := [gray, gray, gray] }
    else r0
  | some (.str s) =>
    match rgbParse s.data with
    | some (r, g, b) => { textColor := s, rgbValues := [r, g, b] }
    | none => { textColor := s, rgbValues := [0, 0, 0] }
  | some (.num x) =>
    let gray := jsRound (x * 255)
    { textColor := rgbString gray gray gray, rgbValues := [gray, gray, gray] }

/-- Left-pad with `'0'` to the given length (JS `padStart(len, '0')`). -/
def padStartZero (l : List Char) (len : ℕ) : List Char :=
  List.replicate (len - l.length) '0' ++ l

/-- The upload-path conversion in `usePDFEditor.uploadDocument` for a packed
integer color: `'#' + color.toString(16).padStart(6, '0')`. -/
def uploadHexColor (n : ℕ) : String :=
  "#" ++ String.mk (padStartZero (Nat.toDigits 16 n) 6)

/-! ### Coordinate transform

Embeds the Y computation of `renderTextLayer` (the viewport passed in is
`page.getViewport({scale})`, whose height is the scale-1 page height times
the scale; `item.transform[5]` and `item.height` are unscaled PDF units) and
of `handleDownloadPDF` (which uses a scale-1 viewport), plus the formula the
spec states, for comparison. -/

/-- Height of `page.getViewport({scale})` for an unrotated page: the
Page Content Provider scales page dimensions linearly. -/
def viewportHeightAt (pageHeight1 scale : ℚ) : ℚ := scale * pageHeight1

/-- `renderTextLayer`: `y = viewport.height - item.transform[5] - item.height`
with the viewport at the current render scale. -/
def renderTextLayerY (pageHeight1 scale pdfY glyphHeight : ℚ) : ℚ :=
  viewportHeightAt pageHeight1 scale - pdfY - glyphHeight

/-- `handleDownloadPDF`: same formula with a scale-1.0 viewport. -/
def downloadPageY (pageHeight1 pdfY glyphHeight : ℚ) : ℚ :=
  viewportHeightAt pageHeight1 1 - pdfY - glyphHeight

/-- Modelled from the spec: `displayY = (pageHeight - pdfY - glyphHeight)`
at scale 1, then multiplied by `scale` (refinement target for C4). -/
def specDisplayY (pageHeight1 scale pdfY glyphHeight : ℚ) : ℚ :=
  (pageHeight1 - pdfY - glyphHeight) * scale

/-! ### Zoom handlers

`handleZoom` from `src/components/PDFViewer.tsx` (lines 454–461) and
`handleZoomIn` / `handleZoomOut` from the modern viewer.  The step 0.2 and
the bounds 0.5 / 3 are exact rationals here. -/

/-- `handleZoom`: add or subtract 0.2, then clamp into `[0.5, 3]` with
`Math.max(0.5, Math.min(3, ...))`, and store the result. -/
def handleZoom (zoomIn : Bool) (currentScale : ℚ) : ℚ :=
  let scaleChange : ℚ := if zoomIn then 1 / 5 else -(1 / 5)
  max (1 / 2) (min 3 (currentScale + scaleChange))

/-- Modern viewer `handleZoomIn`: `Math.min(scale + 0.2, 3.0)`. -/
def handleZoomIn (currentScale : ℚ) : ℚ := min (currentScale + 1 / 5) 3

/-- Modern viewer `handleZoomOut`: `Math.max(scale - 0.2, 0.5)`. -/
def handleZoomOut (currentScale : ℚ) : ℚ := max (currentScale - 1 / 5) (1 / 2)

/-! ### Edit-request preprocessing (backend `routes/pdf.js`, edit route)

Embeds lines 327–349: strip one trailing `"..."` from each text, then match
the date regex `/\b\d{1,2}-[A-Za-z]{3}-\d{4}\b/g` against both; when each has
exactly one match, narrow the replacement to the date substrings. -/

/-- Match `\d{2}-[A-Za-z]{3}-\d{4}` at the head (the two-digit alternative of
the quantifier `\d{1,2}`), returning the matched characters and the rest. -/
def date2At : List Char → Option (List Char × List Char)
  | d1 :: d2 :: '-' :: a :: b :: c :: '-' :: y1 :: y2 :: y3 :: y4 :: rest =>
    if isDigit09 d1 && isDigit09 d2 && isLetterAZ a && isLetterAZ b && isLetterAZ c &&
       isDigit09 y1 && isDigit09 y2 && isDigit09 y3 && isDigit09 y4
    then some ([d1, d2, '-', a, b, c, '-', y1, y2, y3, y4], rest)
    else none
  | _ => none

/-- Match `\d{1}-[A-Za-z]{3}-\d{4}` at the head (the one-digit alternative). -/
def date1At : List Char → Option (List Char × List Char)
  | d1 :: '-' :: a :: b :: c :: '-' :: y1 :: y2 :: y3 :: y4 :: rest =>
    if isDigit09 d1 && isLetterAZ a && isLetterAZ b && isLetterAZ c &&
       isDigit09 y1 && isDigit09 y2 && isDigit09 y3 && isDigit09 y4
    then some ([d1, '-', a, b, c, '-', y1, y2, y3, y4], rest)
    else none
  | _ => none

/-- Match the bare claim pattern `\d{1,2}-[A-Za-z]{3}-\d{4}` at the head,
greedy (two digits first, then one). -/
def dateAt (l : List Char) : Option (List Char × List Char) :=
  match date2At l with
  | some v => some v
  | none => date1At l

/-- `\b` before the match: the pattern starts with a digit (a word
character), so the boundary holds exactly when there is no preceding
character or it is a non-word character. -/
def boundaryBefore : Option Char → Bool
  | none => true
  | some c => !isWordC c

/-- `\b` after the match: the pattern ends with a digit, so the boundary
holds exactly when the rest is empty or starts with a non-word character. -/
def boundaryAfter : List Char → Bool
  | [] => true
  | c :: _ => !isWordC c

/-- Match the code's full pattern `\b\d{1,2}-[A-Za-z]{3}-\d{4}\b` at the
current position (`prev` is the character before it), with the regex
engine's backtracking from the two-digit to the one-digit alternative when
the trailing boundary fails. -/
def bdateAt (prev : Option Char) (l : List Char) : Option (List Char × List Char) :=
  if boundaryBefore prev then
    match date2At l with
    | some p =>
      if boundaryAfter p.2 then some p
      else
        match date1At l with
        | some q => if boundaryAfter q.2 then some q else none
        | none => none
    | none =>
      match date1At l with
      | some q => if boundaryAfter q.2 then some q else none
      | none => none
  else none

/-- Scan for all matches of the global regex, left to right and
non-overlapping, as `String.prototype.match` with the `g` flag does.
`fuel` bounds the recursion; the wrapper supplies enough. -/
def jsDateMatchesAux : ℕ → Option Char → List Char → List (List Char)
  | 0, _, _ => []
  | _ + 1, _, [] => []
  | fuel + 1, prev, c :: rest =>
    match bdateAt prev (c :: rest) with
    | some p => p.1 :: jsDateMatchesAux fuel p.1.getLast? p.2
    | none => jsDateMatchesAux fuel (some c) rest

/-- All matches of `/\b\d{1,2}-[A-Za-z]{3}-\d{4}\b/g` in the text. -/
def jsDateMatches (l : List Char) : List (List Char) :=
  jsDateMatchesAux (l.length + 1) none l

/-- Modelled from the spec: the occurrences of a date-shaped substring
matching the bare pattern `\d{1,2}-[A-Za-z]{3}-\d{4}` (no word-boundary
anchors), one entry per start position (comparison definition for C6). -/
def dateOccurrences (l : List Char) : List (List Char) :=
  (List.range (l.length + 1)).filterMap (fun i => (dateAt (l.drop i)).map Prod.fst)

/-- Does the text end with the literal `"..."` (JS `endsWith('...')`)? -/
def endsWithDots (l : List Char) : Bool := startsWithL l.reverse ['.', '.', '.']

/-- `if (t.endsWith('...')) t = t.slice(0, -3)`. -/
def stripTrailingEllipsis (l : List Char) : List Char :=
  if endsWithDots l then l.take (l.length - 3) else l

/-- The route's preprocessing of `(oldText, newText)` before the matching
step: strip one trailing ellipsis from each, then narrow to the date
substrings when each text has exactly one date-regex match. -/
def preprocessEdit (oldText newText : List Char) : List Char × List Char :=
  let po := stripTrailingEllipsis oldText
  let pn := stripTrailingEllipsis newText
  match jsDateMatches po, jsDateMatches pn with
  | [d1], [d2] => (d1, d2)
  | _, _ => (po, pn)

/-! ### Text-item identity: extraction vs edit application

Extraction (`renderTextLayer`) filters out runs whose trimmed text is empty
and assigns `id = text-(page)-(index)` with `index` the position in the
FILTERED list.  Edit application (`handleDownloadPDF`) re-enumerates
`textContent.items` WITHOUT the filter and looks the id up with the RAW
index. -/

/-- JS `str.trim().length > 0`: the run has some non-whitespace character. -/
def hasVisibleText (l : List Char) : Bool := l.any (fun c => !c.isWhitespace)

/-- The stable id template literal `text-(page)-(index)`. -/
def textIdFor (page idx : ℕ) : String :=
  "text-" ++ toString page ++ "-" ++ toString idx

/-- Extraction: `(id, content)` pairs as `renderTextLayer` builds them, the
index enumerating the filtered run list. -/
def extractTextIds (page : ℕ) (runs : List String) : List (String × String) :=
  ((runs.filter (fun s => hasVisibleText s.data)).enum).map
    (fun p => (textIdFor page p.1, p.2))

/-- The run a stored id designates at extraction time. -/
def extractionRunFor (page : ℕ) (runs : List String) (id : String) : Option String :=
  ((extractTextIds page runs).find? (fun p => p.1 = id)).map Prod.snd

/-- The run the same id designates when `handleDownloadPDF` re-enumerates the
page's raw (unfiltered) run list. -/
def applyRunFor (page : ℕ) (runs : List String) (id : String) : Option String :=
  (runs.enum.find? (fun p => textIdFor page p.1 = id)).map Prod.snd

/-- First value stored under a string key (JS object lookup). -/
def lookupStr (m : List (String × String)) (k : String) : Option String :=
  (m.find? (fun p => p.1 = k)).map Prod.snd

/-- The `(originalRun, replacement)` pairs `handleDownloadPDF` actually
draws: for each raw `(index, run)`, the edit stored under
`text-(page)-(index)` is applied when present and different from the raw
run's text. -/
def appliedEdits (page : ℕ) (runs : List String)
    (pageEdits : List (String × String)) : List (String × String) :=
  runs.enum.filterMap (fun p =>
    match lookupStr pageEdits (textIdFor page p.1) with
    | some c => if c ≠ p.2 then some (p.2, c) else none
    | none => none)

/-! ### Save-PDF guard (`handleDownloadPDF`, lines 487–495)

Before any page processing, the handler counts the edits across pages and
returns with an error toast when there are none. -/

/-- Total number of recorded edits across all pages
(`Object.values(textEdits).reduce(...)`). -/
def totalEdits (edits : List (ℕ × List (String × String))) : ℕ :=
  (edits.map (fun p => p.2.length)).sum

/-- Outcome of the Save PDF handler. -/
inductive DownloadResult where
  | noEditsError
  | savedPdf (editCount : ℕ)
deriving DecidableEq, Repr

/-- The document-session state the handler can observe or change. -/
structure ViewerDoc where
  bytes : List ℕ
  pageCount : ℕ
deriving DecidableEq, Repr

/-- The Save PDF handler's guard: with zero edits it reports the error and
returns before building any output document; otherwise it builds the new
PDF.  In both cases the loaded document state is left as it was. -/
def handleDownloadPDFModel (doc : ViewerDoc)
    (edits : List (ℕ × List (String × String))) : DownloadResult × ViewerDoc :=
  if totalEdits edits = 0 then (.noEditsError, doc)
  else (.savedPdf (totalEdits edits), doc)

/-! ### Backend edit route responses (`routes/pdf.js`, lines 386–432)

The close handler of the spawned text-editing process: exit code 0 with
parseable output yields the real success response; a parse failure or a
nonzero exit code yields `getMockEditResponse`, which also carries
`success: true`.  The route only ever reads the uploaded file. -/

/-- Shape of the JSON body the edit route sends back. -/
structure EditResponse where
  success : Bool
  message : String
  editedFileId : String
  note : Option String
deriving DecidableEq, Repr

/-- `getMockEditResponse(pageNumber)`: the fallback body used whenever the
underlying text-editing process is unavailable or fails. -/
def getMockEditResponse (pageNumber : ℕ) : EditResponse :=
  { success := true
    message := "Text successfully edited on page " ++ toString pageNumber ++
      " (mock response - Python service not available)"
    editedFileId := "mock_edited"
    note := some "This is a mock response. Real editing requires Python services to be running." }

/-- The close handler: `exitCode` is the process exit code and `parsed`
tells whether its stdout parsed as JSON (the route inspects nothing else of
the parsed value). -/
def editCloseResponse (id : String) (pageNumber : ℕ) (exitCode : ℤ)
    (parsed : Option Unit) : EditResponse :=
  if exitCode = 0 then
    match parsed with
    | some _ =>
      { success := true
        message := "Text successfully edited on page " ++ toString pageNumber ++
          " using pikepdf"
        editedFileId := id ++ "_edited"
        note := none }
    | none => getMockEditResponse pageNumber
  else getMockEditResponse pageNumber

/-- The route's full observable outcome: the response body together with the
uploaded document's bytes after the request (the handler performs no write
to the uploads path, so they are the bytes it started with). -/
structure EditRouteOutcome where
  response : EditResponse
  uploadsBytes : List ℕ
deriving DecidableEq, Repr

/-- The edit route around the close handler. -/
def editRouteClose (uploads : List ℕ) (id : String) (pageNumber : ℕ)
    (exitCode : ℤ) (parsed : Option Unit) : EditRouteOutcome :=
  { response := editCloseResponse id pageNumber exitCode parsed
    uploadsBytes := uploads }

/-! ### Edit Records: the per-page edit maps

`handleTextEdit` stores a committed edit with
`{...prevEdits, [page]: {...prevEdits[page], [textId]: content}}`.
JavaScript object update keeps an existing key in place with the new value
and appends a fresh key, which `setKeyAL` mirrors on association lists. -/

/-- First value stored under a key (JS object property lookup). -/
def lookupAL {α β : Type} [DecidableEq α] (m : List (α × β)) (k : α) : Option β :=
  (m.find? (fun p => p.1 = k)).map Prod.snd

/-- JS object update `{...m, [k]: v}`: overwrite in place when the key
exists, append otherwise. -/
def setKeyAL {α β : Type} [DecidableEq α] (m : List (α × β)) (k : α) (v : β) :
    List (α × β) :=
  if m.any (fun p => p.1 = k) then m.map (fun p => if p.1 = k then (k, v) else p)
  else m ++ [(k, v)]

/-- Number of records stored under a key. -/
def countKey {α β : Type} [DecidableEq α] (m : List (α × β)) (k : α) : ℕ :=
  m.countP (fun p => p.1 = k)

/-- `prevEdits[page] ?? {}` in the spread. -/
def getPageEdits (edits : List (ℕ × List (String × String))) (page : ℕ) :
    List (String × String) :=
  (lookupAL edits page).getD []

/-- `handleTextEdit`'s commit of one edit into the `textEdits` state. -/
def commitEdit (edits : List (ℕ × List (String × String))) (page : ℕ)
    (id content : String) : List (ℕ × List (String × String)) :=
  setKeyAL edits page (setKeyAL (getPageEdits edits page) id content)

/-- Representation invariant of a JS object as an association list: no
duplicate keys in any per-page map. -/
def EditsWF (edits : List (ℕ × List (String × String))) : Prop :=
  ∀ pm ∈ edits, (pm.2.map Prod.fst).Nodup

/-! ### Render tasks (`ModernPDFViewer`)

`renderCurrentPage` cancels the task held in `currentRenderTask` inside a
`try`/`catch` that ignores every cancellation error, then starts a new task
and stores it; awaiting the task to completion clears the ref; the unmount
cleanup cancels inside the same `try`/`catch`.  `rawCancel` models the Page
Content Provider's `RenderTask.cancel`, which the component treats as able
to throw when the task is no longer in flight — both call sites guard it. -/

inductive TaskStatus where
  | running
  | completed
  | cancelled
deriving DecidableEq, Repr

/-- The component's render bookkeeping: every task ever started (so that
cancelled and completed ones remain observable) and the index the
`currentRenderTask` ref points at. -/
structure RenderState where
  tasks : List TaskStatus
  cur : Option ℕ
deriving DecidableEq, Repr

/-- The external `RenderTask.cancel`: cancels an in-flight task and throws
on one that already settled. -/
def rawCancel : TaskStatus → Except String TaskStatus
  | .running => .ok .cancelled
  | .completed => .error "task already completed"
  | .cancelled => .error "task already cancelled"

/-- The guarded cancel at both call sites:
`try { currentRenderTask.current.cancel() } catch { } ;
currentRenderTask.current = null`.  The second component reports whether an
error escaped to the caller; the `catch` swallows every one. -/
def safeCancelCur (st : RenderState) : RenderState × Bool :=
  match st.cur with
  | none => ({ st with cur := none }, false)
  | some i =>
    match st.tasks[i]? with
    | none => ({ st with cur := none }, false)
    | some t =>
      match rawCancel t with
      | .ok t' => ({ tasks := st.tasks.set i t', cur := none }, false)
      | .error _ => ({ st with cur := none }, false)

/-- The render-lifecycle events of the component. -/
inductive ViewerOp where
  | startRender
  | completeRender
  | unmountCleanup
deriving DecidableEq, Repr

/-- One step: `startRender` first runs the guarded cancel of the previous
task, then starts a new task and stores it; `completeRender` is the awaited
render finishing (status to completed, ref cleared); `unmountCleanup` is the
cleanup effect's guarded cancel. -/
def stepViewer (st : RenderState) (op : ViewerOp) : RenderState × Bool :=
  match op with
  | .startRender =>
    let p := safeCancelCur st
    ({ tasks := p.1.tasks ++ [.running], cur := some p.1.tasks.length }, p.2)
  | .completeRender =>
    match st.cur with
    | none => (st, false)
    | some i =>
      match st.tasks[i]? with
      | some .running => ({ tasks := st.tasks.set i .completed, cur := none }, false)
      | _ => (st, false)
  | .unmountCleanup => safeCancelCur st

/-- Run a sequence of lifecycle events from the initial mount state,
collecting whether any step let an error escape. -/
def runViewer (ops : List ViewerOp) : RenderState × Bool :=
  ops.foldl (fun p op =>
    let q := stepViewer p.1 op
    (q.1, p.2 || q.2)) (⟨[], none⟩, false)

/-- Number of in-flight render tasks. -/
def runningCount (l : List TaskStatus) : ℕ :=
  l.countP (fun t => t = .running)

/-- Any in-flight task is the one the `currentRenderTask` ref holds. -/
def RefHoldsRunning (st : RenderState) : Prop :=
  ∀ j : ℕ, st.tasks[j]? = some .running → st.cur = some j

/-! ## Theorems -/

/-- C7: the font descriptor resolver strips a six-uppercase-letter plus-sign
prefix, resolves `"ABCDEF+Helvetica-Bold"` to an Arial/Helvetica family with
weight bold and normal style, resolves `"Times-Italic"` to a Times family
with italic style, and on any input without a detection keyword returns the
serif default with normal weight and normal style (it never fails: it is a
total function). -/
theorem C7_font_resolver :
    resolveFont "ABCDEF+Helvetica-Bold" = resolveFont "Helvetica-Bold" ∧
    resolveFont "ABCDEF+Helvetica-Bold" =
      ⟨"Arial, Helvetica, \"Liberation Sans\", sans-serif", "bold", "normal"⟩ ∧
    containsSub (resolveFont "ABCDEF+Helvetica-Bold").fontFamily.data "Arial".data = true ∧
    containsSub (resolveFont "ABCDEF+Helvetica-Bold").fontFamily.data "Helvetica".data = true ∧
    (resolveFont "Times-Italic").fontStyle = "italic" ∧
    containsSub (resolveFont "Times-Italic").fontFamily.data "Times".data = true ∧
    ∀ fontName : String, hasFontKeyword (lowerCleanName fontName) = false →
      resolveFont fontName = ⟨"Times, serif", "normal", "normal"⟩ := by
  refine ⟨by decide, by decide, by decide, by decide, by decide, by decide, ?_⟩
  intro fontName h
  simp only [hasFontKeyword, fontKeywords, List.map_cons, List.map_nil, List.any_cons,
    List.any_nil, Bool.or_eq_false_iff] at h
  obtain ⟨h1, h2, h3, h4, h5, h6, h7, h8, h9, h10, h11, h12, h13, h14, h15, h16, h17,
    h18, h19, h20, h21, -⟩ := h
  simp only [resolveFont, resolveFontFamily, resolveFontWeight, resolveFontStyle,
    lowerCleanName] at *
  simp [h1, h2, h3, h4, h5, h6, h7, h8, h9, h10, h11, h12, h13, h14, h15, h16, h17,
    h18, h19, h20, h21]

/-- C7 witness: the default branch of the resolver at the concrete keyword-free
input `"Foo123"`. -/
theorem C7_font_resolver_witness :
    hasFontKeyword (lowerCleanName "Foo123") = false ∧
    resolveFont "Foo123" = ⟨"Times, serif", "normal", "normal"⟩ :=
  ⟨by decide, C7_font_resolver.2.2.2.2.2.2 "Foo123" (by decide)⟩

/-- C3 counterexample: the claim says the integer-packed color `0xFF0000`
normalizes to the RGB triple `(255, 0, 0)`; the viewer's normalization has no
integer-packed branch and treats every plain number as grayscale, producing
the channel value `round(16711680 * 255) = 4261478400` on all three
channels. -/
theorem C3_color_counterexample :
    (normalizeColor (some (.num 16711680))).rgbValues =
      [4261478400, 4261478400, 4261478400] ∧
    (normalizeColor (some (.num 16711680))).rgbValues ≠ [255, 0, 0] := by
  constructor
  · show ([jsRound ((16711680 : ℚ) * 255), _, _] : List ℤ) = _
    norm_num [jsRound]
  · intro h
    have h0 : (normalizeColor (some (.num 16711680))).rgbValues.getD 0 0 = 255 := by
      rw [h]; rfl
    have h1 : (normalizeColor (some (.num 16711680))).rgbValues.getD 0 0 =
        jsRound ((16711680 : ℚ) * 255) := rfl
    rw [h1] at h0
    norm_num [jsRound] at h0

/-- C3 (amended): the viewer's normalization converts grayscale scalar 0.5 to
RGB `(128, 128, 128)` and the RGB triple `(0, 1, 0)` to `(0, 255, 0)` as
claimed, but a plain number is always treated as grayscale, so the
integer-packed `0xFF0000` yields `4261478400` on every channel instead of
`(255, 0, 0)`; packed integers are instead converted by the upload path,
which formats them as the hex string `"#ff0000"`, not as an RGB triple. -/
theorem C3_color_normalization :
    (normalizeColor (some (.num (1 / 2)))).rgbValues = [128, 128, 128] ∧
    (normalizeColor (some (.arr [1 / 2]))).rgbValues = [128, 128, 128] ∧
    (normalizeColor (some (.arr [0, 1, 0]))).rgbValues = [0, 255, 0] ∧
    (normalizeColor (some (.num 16711680))).rgbValues =
      [4261478400, 4261478400, 4261478400] ∧
    uploadHexColor 16711680 = "#ff0000" := by
  refine ⟨?_, ?_, ?_, ?_, by decide⟩
  · show ([jsRound ((1 / 2 : ℚ) * 255), _, _] : List ℤ) = _
    norm_num [jsRound]
  · show ([jsRound ((1 / 2 : ℚ) * 255), _, _] : List ℤ) = _
    norm_num [jsRound]
  · show ([jsRound ((0 : ℚ) * 255), jsRound ((1 : ℚ) * 255), jsRound ((0 : ℚ) * 255)] : List ℤ) = _
    norm_num [jsRound]
  · show ([jsRound ((16711680 : ℚ) * 255), _, _] : List ℤ) = _
    norm_num [jsRound]

/-- C4 counterexample: the claim says `displayY = (pageHeight1 - pdfY -
glyphHeight) * scale`; at page height 100, scale 2, `pdfY = 10`, glyph height
5 the code computes `2*100 - 10 - 5 = 185` while the claimed formula gives
`(100 - 10 - 5) * 2 = 170`. -/
theorem C4_display_y_counterexample :
    renderTextLayerY 100 2 10 5 = 185 ∧
    specDisplayY 100 2 10 5 = 170 ∧
    renderTextLayerY 100 2 10 5 ≠ specDisplayY 100 2 10 5 := by
  norm_num [renderTextLayerY, specDisplayY, viewportHeightAt]

/-- C4 (amended): the code converts with the page height already at the
current scale but leaves the PDF-space Y and the glyph height unscaled:
`displayY = scale * pageHeight1 - pdfY - glyphHeight`.  This agrees with the
claimed formula exactly at scale 1, which is the scale the download
(edit-application) path always uses. -/
theorem C4_display_y (h1 s y g : ℚ) :
    renderTextLayerY h1 s y g = s * h1 - y - g ∧
    renderTextLayerY h1 1 y g = specDisplayY h1 1 y g ∧
    downloadPageY h1 y g = specDisplayY h1 1 y g := by
  refine ⟨rfl, ?_, ?_⟩ <;>
    simp only [renderTextLayerY, downloadPageY, specDisplayY, viewportHeightAt] <;>
    ring

/-- C5 counterexample: the claim says a requested scale outside `[0.5, 3]` is
rejected with the stored scale unchanged; zooming in from 2.9 requests
`3.1 > 3`, yet the stored scale becomes the clamped value 3, not 2.9. -/
theorem C5_zoom_counterexample :
    (3 : ℚ) < 29 / 10 + 1 / 5 ∧
    handleZoom true (29 / 10) = 3 ∧
    handleZoom true (29 / 10) ≠ 29 / 10 := by
  norm_num [handleZoom]

/-- C5 (amended): a requested scale outside `[0.5, 3]` is silently clamped
into the range, never rejected: `handleZoom` stores exactly
`max 0.5 (min 3 (current ± 0.2))`, whose result always lies in `[0.5, 3]`;
the modern viewer's `handleZoomIn`/`handleZoomOut` clamp the same way and
keep an in-range scale in range. -/
theorem C5_zoom_clamps (zoomIn : Bool) (s : ℚ) :
    handleZoom zoomIn s =
      max (1 / 2) (min 3 (s + (if zoomIn then 1 / 5 else -(1 / 5)))) ∧
    1 / 2 ≤ handleZoom zoomIn s ∧ handleZoom zoomIn s ≤ 3 ∧
    (1 / 2 ≤ s → s ≤ 3 →
      1 / 2 ≤ handleZoomIn s ∧ handleZoomIn s ≤ 3 ∧
      1 / 2 ≤ handleZoomOut s ∧ handleZoomOut s ≤ 3) := by
  refine ⟨rfl, le_max_left _ _, ?_, ?_⟩
  · exact max_le (by norm_num) (min_le_left _ _)
  · intro hlo hhi
    refine ⟨le_min (by linarith) (by norm_num), min_le_right _ _,
      le_max_right _ _, max_le (by linarith) (by norm_num)⟩

/-- C5 witness: the clamping theorem applied at zoom-in from scale 1. -/
theorem C5_zoom_clamps_witness :
    1 / 2 ≤ handleZoom true 1 ∧ handleZoom true 1 ≤ 3 ∧
    1 / 2 ≤ handleZoomIn 1 ∧ handleZoomIn 1 ≤ 3 :=
  ⟨(C5_zoom_clamps true 1).2.1, (C5_zoom_clamps true 1).2.2.1,
   ((C5_zoom_clamps true 1).2.2.2 (by norm_num) (by norm_num)).1,
   ((C5_zoom_clamps true 1).2.2.2 (by norm_num) (by norm_num)).2.1⟩

/-- C6 counterexample: the claim states the bare date pattern
`\d{1,2}-[A-Za-z]{3}-\d{4}`, but the code's regex carries `\b` anchors.  In
`"1-Jan-20245"` and `"2-Feb-20245"` each text contains exactly one
date-shaped substring under the bare pattern, so the claim requires the
match to narrow to the dates; the code's anchored regex finds no match
(the year runs into a fifth digit) and the texts pass through unnarrowed. -/
theorem C6_preprocess_counterexample :
    dateOccurrences "1-Jan-20245".data = ["1-Jan-2024".data] ∧
    dateOccurrences "2-Feb-20245".data = ["2-Feb-2024".data] ∧
    jsDateMatches "1-Jan-20245".data = [] ∧
    preprocessEdit "1-Jan-20245".data "2-Feb-20245".data =
      ("1-Jan-20245".data, "2-Feb-20245".data) ∧
    preprocessEdit "1-Jan-20245".data "2-Feb-20245".data ≠
      ("1-Jan-2024".data, "2-Feb-2024".data) := by
  refine ⟨by decide, by decide, by decide, by decide, by decide⟩

/-- C6 (amended): preprocessing strips one trailing `"..."` from each text
(dropping its last three characters), and narrows the match to the date
substrings exactly when the word-boundary-anchored regex
`\b\d{1,2}-[A-Za-z]{3}-\d{4}\b` (not the bare pattern the claim states) has
exactly one match in the stripped old text and exactly one in the stripped
new text. -/
theorem C6_preprocess (oldText newText d1 d2 : List Char)
    (h1 : jsDateMatches (stripTrailingEllipsis oldText) = [d1])
    (h2 : jsDateMatches (stripTrailingEllipsis newText) = [d2]) :
    preprocessEdit oldText newText = (d1, d2) ∧
    (∀ l : List Char, endsWithDots l = true →
      stripTrailingEllipsis l = l.take (l.length - 3)) := by
  constructor
  · simp only [preprocessEdit, h1, h2]
  · intro l h
    simp [stripTrailingEllipsis, h]

/-- C6 witness: the preprocessing theorem at the spec's scenario texts, each
containing the single date the code's regex finds. -/
theorem C6_preprocess_witness :
    jsDateMatches (stripTrailingEllipsis "Invoice Date: 01-Jan-2024".data) =
      ["01-Jan-2024".data] ∧
    preprocessEdit "Invoice Date: 01-Jan-2024".data "Invoice Date: 15-Feb-2024".data =
      ("01-Jan-2024".data, "15-Feb-2024".data) :=
  ⟨by decide,
   (C6_preprocess "Invoice Date: 01-Jan-2024".data "Invoice Date: 15-Feb-2024".data
      "01-Jan-2024".data "15-Feb-2024".data (by decide) (by decide)).1⟩

/-- C1: on a page whose raw runs are `[" ", "Hello"]`, extraction drops the
empty-trimmed run and assigns id `text-1-0` to `"Hello"`, but the
edit-application step re-enumerates the raw runs, so the same id designates
the whitespace run `" "`; an edit `"Hello" → "Hi"` stored under `text-1-0`
is drawn over the whitespace run instead of the run the user edited.  The
identities therefore do NOT designate the same underlying run, contradicting
the claim and the extraction step's own dense-index design. -/
theorem C1_identity_mismatch :
    extractionRunFor 1 [" ", "Hello"] (textIdFor 1 0) = some "Hello" ∧
    applyRunFor 1 [" ", "Hello"] (textIdFor 1 0) = some " " ∧
    extractionRunFor 1 [" ", "Hello"] (textIdFor 1 0) ≠
      applyRunFor 1 [" ", "Hello"] (textIdFor 1 0) ∧
    appliedEdits 1 [" ", "Hello"] [(textIdFor 1 0, "Hi")] = [(" ", "Hi")] := by
  refine ⟨by decide, by decide, by decide, by decide⟩

/-- C1 supporting fact: on a page with no empty-trimmed run the two
enumerations agree, so the mismatch is exactly the filtered/unfiltered
discrepancy. -/
theorem C1_agreement_without_empty_runs (page : ℕ) (runs : List String)
    (h : ∀ r ∈ runs, hasVisibleText r.data = true) (id : String) :
    extractionRunFor page runs id = applyRunFor page runs id := by
  have hf : runs.filter (fun s => hasVisibleText s.data) = runs :=
    List.filter_eq_self.mpr h
  simp only [extractionRunFor, extractTextIds, applyRunFor, hf]
  rw [List.find?_map]
  simp [Function.comp_def, Option.map_map]

/-- C10: with an empty edit map the Save PDF handler reports the no-edits
error, produces no output document, and leaves the loaded document state
unchanged, for every loaded document. -/
theorem C10_empty_edits_rejected (doc : ViewerDoc) :
    handleDownloadPDFModel doc [] = (DownloadResult.noEditsError, doc) := by
  simp [handleDownloadPDFModel, totalEdits]

/-- C2 counterexample: when the text-editing process exits with code 1 (and
there is no parseable output), the route responds with the mock body, whose
`success` field is `true` — the operation does report success, contradicting
the claim. -/
theorem C2_failure_reports_success :
    (editCloseResponse "doc1" 1 1 none).success = true ∧
    editCloseResponse "doc1" 1 1 none = getMockEditResponse 1 := by
  exact ⟨rfl, rfl⟩

/-- C2 (amended): on every apply failure (nonzero exit code, or output that
cannot be parsed) the uploaded document bytes are left unchanged, but the
route responds with the mock response — marked as a mock in its message and
note — whose `success` field is `true`, rather than a user-visible failure;
the client therefore retains its pending Edit Record only because nothing
tells it the edit failed. -/
theorem C2_failure_outcome (uploads : List ℕ) (id : String) (page : ℕ)
    (code : ℤ) (parsed : Option Unit) (hfail : code ≠ 0 ∨ parsed = none) :
    (editRouteClose uploads id page code parsed).uploadsBytes = uploads ∧
    (editRouteClose uploads id page code parsed).response = getMockEditResponse page ∧
    (editRouteClose uploads id page code parsed).response.success = true := by
  have hresp : (editRouteClose uploads id page code parsed).response
      = getMockEditResponse page := by
    rcases hfail with h | h
    · simp [editRouteClose, editCloseResponse, h]
    · subst h
      by_cases h0 : code = 0 <;> simp [editRouteClose, editCloseResponse, h0]
  exact ⟨rfl, hresp, by rw [hresp]; rfl⟩

/-- C2 witness: the failure outcome at exit code 1 on a one-byte document. -/
theorem C2_failure_outcome_witness :
    (editRouteClose [7] "doc1" 1 1 none).uploadsBytes = [7] ∧
    (editRouteClose [7] "doc1" 1 1 none).response = getMockEditResponse 1 ∧
    (editRouteClose [7] "doc1" 1 1 none).response.success = true :=
  C2_failure_outcome [7] "doc1" 1 1 none (Or.inl (by decide))

/-- Updating an existing key in place finds the new value; with no occurrence
the update finds nothing. -/
theorem find?_map_upd {α β : Type} [DecidableEq α] (m : List (α × β)) (k : α) (v : β) :
    (m.map (fun p => if p.1 = k then (k, v) else p)).find? (fun p => p.1 = k) =
      if m.any (fun p => p.1 = k) then some (k, v) else none := by
  induction m with
  | nil => simp
  | cons a tl ih =>
    by_cases hak : a.1 = k
    · simp [hak]
    · simp only [List.map_cons, if_neg hak, List.any_cons, decide_eq_false hak,
        Bool.false_or]
      rw [List.find?_cons_of_neg _ (by simpa using hak)]
      exact ih

/-- Appending a fresh key makes it findable when it was absent before. -/
theorem find?_append_key {α β : Type} [DecidableEq α] (m : List (α × β)) (k : α) (v : β)
    (h : m.any (fun p => p.1 = k) = false) :
    (m ++ [(k, v)]).find? (fun p => p.1 = k) = some (k, v) := by
  induction m with
  | nil => simp
  | cons a tl ih =>
    simp only [List.any_cons, Bool.or_eq_false_iff] at h
    simp only [List.cons_append]
    rw [List.find?_cons_of_neg _ (by simpa using h.1)]
    exact ih h.2

/-- JS object update always makes the key map to the new value. -/
theorem lookupAL_setKeyAL {α β : Type} [DecidableEq α] (m : List (α × β)) (k : α) (v : β) :
    lookupAL (setKeyAL m k v) k = some v := by
  unfold lookupAL setKeyAL
  cases hb : m.any (fun p => p.1 = k) with
  | true =>
    simp only [eq_self_iff_true, if_true]
    rw [find?_map_upd, hb]
    rfl
  | false =>
    rw [if_neg (show ¬(false = true) by simp), find?_append_key m k v hb]
    rfl

/-- In-place overwrite leaves the number of records under the key alone. -/
theorem countKey_map_upd {α β : Type} [DecidableEq α] (m : List (α × β)) (k : α) (v : β) :
    countKey (m.map (fun p => if p.1 = k then (k, v) else p)) k = countKey m k := by
  unfold countKey
  induction m with
  | nil => rfl
  | cons a tl ih =>
    by_cases hak : a.1 = k <;> simp [List.countP_cons, hak, ih]

/-- Appending a record under the key adds exactly one. -/
theorem countKey_append_one {α β : Type} [DecidableEq α] (m : List (α × β)) (k : α) (v : β) :
    countKey (m ++ [(k, v)]) k = countKey m k + 1 := by
  unfold countKey
  rw [List.countP_append]
  simp [List.countP_cons]

/-- The record count after a JS object update. -/
theorem countKey_setKeyAL {α β : Type} [DecidableEq α] (m : List (α × β)) (k : α) (v : β) :
    countKey (setKeyAL m k v) k =
      if m.any (fun p => p.1 = k) then countKey m k else countKey m k + 1 := by
  unfold setKeyAL
  cases hb : m.any (fun p => p.1 = k) with
  | true =>
    simp only [eq_self_iff_true, if_true]
    exact countKey_map_upd m k v
  | false =>
    simp only [if_neg (show ¬(false = true) by simp)]
    exact countKey_append_one m k v

/-- An absent key has no records. -/
theorem countKey_eq_zero {α β : Type} [DecidableEq α] {m : List (α × β)} {k : α}
    (h : m.any (fun p => p.1 = k) = false) : countKey m k = 0 := by
  unfold countKey
  rw [List.countP_eq_zero]
  exact List.any_eq_false.mp h

/-- With distinct keys, a present key has exactly one record. -/
theorem countKey_eq_one_of_nodup {α β : Type} [DecidableEq α] {m : List (α × β)} {k : α}
    (hnd : (m.map Prod.fst).Nodup) (h : m.any (fun p => p.1 = k) = true) :
    countKey m k = 1 := by
  induction m with
  | nil => simp at h
  | cons a tl ih =>
    simp only [List.map_cons, List.nodup_cons] at hnd
    obtain ⟨hnotin, hnd'⟩ := hnd
    by_cases hak : a.1 = k
    · unfold countKey
      rw [List.countP_cons_of_pos _ _ (by simp [hak])]
      have h0 : tl.countP (fun p => p.1 = k) = 0 := by
        rw [List.countP_eq_zero]
        intro b hb hpb
        have hb1 : b.1 = k := of_decide_eq_true hpb
        apply hnotin
        rw [hak, ← hb1]
        exact List.mem_map_of_mem Prod.fst hb
      rw [h0]
    · unfold countKey
      rw [List.countP_cons_of_neg _ _ (by simp [hak])]
      apply ih hnd'
      simpa [hak] using h

/-- Looking up a page after storing its map gives that map back. -/
theorem getPageEdits_setKeyAL (edits : List (ℕ × List (String × String))) (page : ℕ)
    (pm : List (String × String)) :
    getPageEdits (setKeyAL edits page pm) page = pm := by
  unfold getPageEdits
  rw [lookupAL_setKeyAL]
  rfl

/-- C8: committing two edits to the same `(page, textId)` leaves the latest
replacement under that id and exactly one record for it in the page's edit
map, for any well-formed starting edit state — the second commit overwrites,
it does not append. -/
theorem C8_at_most_one_pending_edit (edits : List (ℕ × List (String × String)))
    (page : ℕ) (id c1 c2 : String) (hwf : EditsWF edits) :
    lookupAL (getPageEdits (commitEdit (commitEdit edits page id c1) page id c2) page) id
      = some c2 ∧
    countKey (getPageEdits (commitEdit (commitEdit edits page id c1) page id c2) page) id
      = 1 := by
  have hnd0 : ((getPageEdits edits page).map Prod.fst).Nodup := by
    unfold getPageEdits lookupAL
    rcases hfind : edits.find? (fun p => p.1 = page) with _ | q
    · simp [hfind]
    · simp only [hfind, Option.map_some', Option.getD_some]
      exact hwf q (List.mem_of_find?_eq_some hfind)
  have hE1 : getPageEdits (commitEdit edits page id c1) page
      = setKeyAL (getPageEdits edits page) id c1 := by
    rw [commitEdit, getPageEdits_setKeyAL]
  have hE2 : getPageEdits (commitEdit (commitEdit edits page id c1) page id c2) page
      = setKeyAL (setKeyAL (getPageEdits edits page) id c1) id c2 := by
    conv_lhs => rw [commitEdit]
    rw [getPageEdits_setKeyAL, hE1]
  have h1 : countKey (setKeyAL (getPageEdits edits page) id c1) id = 1 := by
    rw [countKey_setKeyAL]
    cases hb : (getPageEdits edits page).any (fun p => p.1 = id) with
    | true => simpa using countKey_eq_one_of_nodup hnd0 hb
    | false => simp [countKey_eq_zero hb]
  rw [hE2]
  refine ⟨lookupAL_setKeyAL _ _ _, ?_⟩
  rw [countKey_setKeyAL]
  cases hb : (setKeyAL (getPageEdits edits page) id c1).any (fun p => p.1 = id) with
  | true => simpa using h1
  | false => simp [countKey_eq_zero hb]

/-- C8 witness: two commits to the same id from the empty edit state. -/
theorem C8_at_most_one_pending_edit_witness :
    lookupAL (getPageEdits (commitEdit (commitEdit [] 1 "text-1-0" "a") 1 "text-1-0" "b") 1)
      "text-1-0" = some "b" ∧
    countKey (getPageEdits (commitEdit (commitEdit [] 1 "text-1-0" "a") 1 "text-1-0" "b") 1)
      "text-1-0" = 1 :=
  C8_at_most_one_pending_edit [] 1 "text-1-0" "a" "b"
    (fun pm hpm => absurd hpm (List.not_mem_nil pm))

/-- The guarded cancel never lets an error escape, whatever the task's
status — in particular on a completed task or on one already cancelled. -/
theorem safeCancelCur_no_error (st : RenderState) : (safeCancelCur st).2 = false := by
  unfold safeCancelCur
  split
  · rfl
  · split
    · rfl
    · split <;> rfl

/-- No lifecycle step lets an error escape. -/
theorem stepViewer_no_error (st : RenderState) (op : ViewerOp) :
    (stepViewer st op).2 = false := by
  cases op with
  | startRender => simpa [stepViewer] using safeCancelCur_no_error st
  | completeRender =>
    simp only [stepViewer]
    split
    · rfl
    · split <;> rfl
  | unmountCleanup => exact safeCancelCur_no_error st

/-- After the guarded cancel no task is left in flight, provided the ref was
the only possible holder of one. -/
theorem safeCancelCur_no_running (st : RenderState) (hinv : RefHoldsRunning st) :
    ∀ j : ℕ, (safeCancelCur st).1.tasks[j]? ≠ some TaskStatus.running := by
  intro j hj
  rcases hc : st.cur with _ | i
  · have hj' : st.tasks[j]? = some TaskStatus.running := by
      simpa [safeCancelCur, hc] using hj
    have := hinv j hj'
    rw [hc] at this
    exact Option.noConfusion this
  · rcases ht : st.tasks[i]? with _ | t
    · have hj' : st.tasks[j]? = some TaskStatus.running := by
        simpa [safeCancelCur, hc, ht] using hj
      have := hinv j hj'
      rw [hc] at this
      have hij : i = j := Option.some_injective _ this
      rw [hij, hj'] at ht
      exact Option.noConfusion ht
    · rcases t with _ | _ | _
      · have hj' : (st.tasks.set i TaskStatus.cancelled)[j]? = some TaskStatus.running := by
          simpa [safeCancelCur, hc, ht, rawCancel] using hj
        by_cases hij : i = j
        · subst hij
          have hlen : i < st.tasks.length := by
            rcases List.getElem?_eq_some.mp ht with ⟨hl, -⟩
            exact hl
          rw [List.getElem?_set_self hlen] at hj'
          exact TaskStatus.noConfusion (Option.some_injective _ hj')
        · rw [List.getElem?_set_ne hij] at hj'
          have := hinv j hj'
          rw [hc] at this
          exact hij (Option.some_injective _ this)
      · have hj' : st.tasks[j]? = some TaskStatus.running := by
          simpa [safeCancelCur, hc, ht, rawCancel] using hj
        have := hinv j hj'
        rw [hc] at this
        have hij : i = j := Option.some_injective _ this
        rw [hij, hj'] at ht
        exact TaskStatus.noConfusion (Option.some_injective _ ht)
      · have hj' : st.tasks[j]? = some TaskStatus.running := by
          simpa [safeCancelCur, hc, ht, rawCancel] using hj
        have := hinv j hj'
        rw [hc] at this
        have hij : i = j := Option.some_injective _ this
        rw [hij, hj'] at ht
        exact TaskStatus.noConfusion (Option.some_injective _ ht)

/-- Every lifecycle step preserves the at-most-the-ref's-task-in-flight
invariant. -/
theorem stepViewer_inv (st : RenderState) (op : ViewerOp) (hinv : RefHoldsRunning st) :
    RefHoldsRunning (stepViewer st op).1 := by
  cases op with
  | startRender =>
    intro j hj
    simp only [stepViewer] at hj ⊢
    rw [List.getElem?_append] at hj
    by_cases hlt : j < (safeCancelCur st).1.tasks.length
    · rw [if_pos hlt] at hj
      exact absurd hj (safeCancelCur_no_running st hinv j)
    · rw [if_neg hlt] at hj
      rcases hd : j - (safeCancelCur st).1.tasks.length with _ | d
      · have : j = (safeCancelCur st).1.tasks.length := by omega
        rw [this]
      · rw [hd] at hj
        simp at hj
  | completeRender =>
    intro j hj
    rcases hc : st.cur with _ | i
    · simp only [stepViewer, hc] at hj ⊢
      have := hinv j hj
      rw [hc] at this
      exact Option.noConfusion this
    · rcases ht : st.tasks[i]? with _ | t
      · simp only [stepViewer, hc, ht] at hj ⊢
        have := hinv j hj
        rw [hc] at this
        have hij : i = j := Option.some_injective _ this
        rw [hij, hj] at ht
        exact Option.noConfusion ht
      · rcases t with _ | _ | _
        · simp only [stepViewer, hc, ht] at hj ⊢
          by_cases hij : i = j
          · subst hij
            have hlen : i < st.tasks.length := by
              rcases List.getElem?_eq_some.mp ht with ⟨hl, -⟩
              exact hl
            rw [List.getElem?_set_self hlen] at hj
            exact absurd hj (by intro h; exact TaskStatus.noConfusion (Option.some_injective _ h))
          · rw [List.getElem?_set_ne hij] at hj
            have := hinv j hj
            rw [hc] at this
            exact absurd (Option.some_injective _ this) hij
        · simp only [stepViewer, hc, ht] at hj ⊢
          have := hinv j hj
          rw [hc] at this
          have hij : i = j := Option.some_injective _ this
          rw [hij, hj] at ht
          exact Option.noConfusion ht fun h => TaskStatus.noConfusion h
        · simp only [stepViewer, hc, ht] at hj ⊢
          have := hinv j hj
          rw [hc] at this
          have hij : i = j := Option.some_injective _ this
          rw [hij, hj] at ht
          exact Option.noConfusion ht fun h => TaskStatus.noConfusion h
  | unmountCleanup =>
    intro j hj
    exact absurd hj (safeCancelCur_no_running st hinv j)

/-- Running any event sequence from the mount state keeps the invariant. -/
theorem runViewer_inv (ops : List ViewerOp) : RefHoldsRunning (runViewer ops).1 := by
  unfold runViewer
  have h : ∀ p : RenderState × Bool, RefHoldsRunning p.1 →
      RefHoldsRunning ((ops.foldl (fun p op =>
        let q := stepViewer p.1 op
        (q.1, p.2 || q.2)) p)).1 := by
    induction ops with
    | nil => intro p hp; exact hp
    | cons op ops ih =>
      intro p hp
      simp only [List.foldl_cons]
      exact ih _ (stepViewer_inv p.1 op hp)
  exact h (⟨[], none⟩, false) (by intro j hj; rw [List.getElem?_nil] at hj; exact Option.noConfusion hj)

/-- Running any event sequence never lets an error escape. -/
theorem runViewer_no_error (ops : List ViewerOp) : (runViewer ops).2 = false := by
  unfold runViewer
  have h : ∀ p : RenderState × Bool, p.2 = false →
      ((ops.foldl (fun p op =>
        let q := stepViewer p.1 op
        (q.1, p.2 || q.2)) p)).2 = false := by
    induction ops with
    | nil => intro p hp; exact hp
    | cons op ops ih =>
      intro p hp
      simp only [List.foldl_cons]
      exact ih _ (by simp [hp, stepViewer_no_error])
  exact h (⟨[], none⟩, false) rfl

/-- A list whose only possible in-flight index is `i` has at most one
in-flight task. -/
theorem countP_running_le_one (l : List TaskStatus) (i : ℕ)
    (h : ∀ j : ℕ, l[j]? = some TaskStatus.running → j = i) :
    l.countP (fun t => t = TaskStatus.running) ≤ 1 := by
  induction l generalizing i with
  | nil => simp
  | cons a tl ih =>
    by_cases ha : a = TaskStatus.running
    · subst ha
      have h0 : tl.countP (fun t => t = TaskStatus.running) = 0 := by
        rw [List.countP_eq_zero]
        intro b hb hpb
        have hb1 : b = TaskStatus.running := of_decide_eq_true hpb
        subst hb1
        obtain ⟨j, hj⟩ := List.mem_iff_getElem?.mp hb
        have h1 := h (j + 1) (by simpa using hj)
        have h2 := h 0 (by simp)
        omega
      rw [List.countP_cons_of_pos _ _ (by simp), h0]
    · rw [List.countP_cons_of_neg _ _ (by simp [ha])]
      rcases i with _ | i'
      · have h0 : tl.countP (fun t => t = TaskStatus.running) = 0 := by
          rw [List.countP_eq_zero]
          intro b hb hpb
          have hb1 : b = TaskStatus.running := of_decide_eq_true hpb
          subst hb1
          obtain ⟨j, hj⟩ := List.mem_iff_getElem?.mp hb
          have := h (j + 1) (by simpa using hj)
          omega
        rw [h0]
        omega
      · exact ih i' (fun j hj => by
          have := h (j + 1) (by simpa using hj)
          omega)

/-- The invariant bounds the number of in-flight tasks by one. -/
theorem runningCount_le_one (st : RenderState) (hinv : RefHoldsRunning st) :
    runningCount st.tasks ≤ 1 := by
  rcases hc : st.cur with _ | i
  · have h0 : runningCount st.tasks = 0 := by
      unfold runningCount
      rw [List.countP_eq_zero]
      intro t ht hpt
      have ht1 : t = TaskStatus.running := of_decide_eq_true hpt
      subst ht1
      obtain ⟨j, hj⟩ := List.mem_iff_getElem?.mp ht
      have := hinv j hj
      rw [hc] at this
      exact Option.noConfusion this
    omega
  · exact countP_running_le_one st.tasks i (fun j hj => by
      have := hinv j hj
      rw [hc] at this
      exact (Option.some_injective _ this).symm)

/-- C9: over every sequence of render-lifecycle events, no cancellation ever
raises an error (cancelling a completed task and cancelling twice included,
since the guarded cancel swallows every cancellation error), at most one
render task is in flight at any time, and starting a new render first
cancels the prior in-flight task. -/
theorem C9_render_task_lifecycle (ops : List ViewerOp) :
    (runViewer ops).2 = false ∧
    runningCount (runViewer ops).1.tasks ≤ 1 ∧
    (∀ st : RenderState, (safeCancelCur st).2 = false) ∧
    (∀ (st : RenderState) (i : ℕ), st.cur = some i →
      st.tasks[i]? = some TaskStatus.running →
      (stepViewer st ViewerOp.startRender).1.tasks[i]? = some TaskStatus.cancelled) := by
  refine ⟨runViewer_no_error ops, runningCount_le_one _ (runViewer_inv ops),
    safeCancelCur_no_error, ?_⟩
  intro st i hc ht
  have hlen : i < st.tasks.length := by
    rcases List.getElem?_eq_some.mp ht with ⟨hl, -⟩
    exact hl
  simp only [stepViewer, safeCancelCur, hc, ht, rawCancel]
  rw [List.getElem?_append, if_pos (by simpa using hlen)]
  exact List.getElem?_set_self hlen

/-- C9 witness: a concrete run — render, complete, then cancel twice — ends
error-free with at most one in-flight task, and starting over a running task
cancels it. -/
theorem C9_render_task_lifecycle_witness :
    (runViewer [ViewerOp.startRender, ViewerOp.completeRender,
      ViewerOp.unmountCleanup, ViewerOp.unmountCleanup]).2 = false ∧
    (stepViewer ⟨[TaskStatus.running], some 0⟩ ViewerOp.startRender).1.tasks[0]?
      = some TaskStatus.cancelled :=
  ⟨(C9_render_task_lifecycle [ViewerOp.startRender, ViewerOp.completeRender,
      ViewerOp.unmountCleanup, ViewerOp.unmountCleanup]).1,
   (C9_render_task_lifecycle []).2.2.2 ⟨[TaskStatus.running], some 0⟩ 0 rfl rfl⟩

end Editz
